import Mathlib

/-!
Verification of the `scripts` CLI tool (Go, `main.go`) against its
natural-language specification.

The Go program manipulates a filesystem through `os.Stat`, `os.Chmod`,
`os.ReadFile`, `os.WriteFile`, `os.MkdirAll`, `os.Remove` and `os.ReadDir`,
and spawns external toolchains through `os/exec`.  We shallowly embed the
program over an explicit filesystem state: a flat association list from
path strings to file entries (permission mode, directory flag, byte
content as a `String`).  External process invocations (compilers, spawned
scripts) are passed in as oracle functions and recorded, since their
behaviour is outside the program.  Parent-directory constraints of a real
filesystem (`MkdirAll` creating intermediate components) are not modelled:
each path is an independent key.
-/

namespace ScriptsTool

/-- File metadata and content, as observed by the Go program through
`os.Stat` (mode bits, `IsDir`) and `os.ReadFile`.  `mode` holds the Unix
permission bits (e.g. `0o644`); `content` holds the file bytes. -/
structure FileInfo where
  isDir : Bool
  mode : Nat
  content : String
deriving DecidableEq, Repr

/-- A filesystem state: a flat association list from absolute path to
entry.  Earlier entries shadow later ones. -/
abbrev FS := List (String × FileInfo)

/-- Model of `os.Stat`: look up the first entry for `p`. -/
def statFS : FS → String → Option FileInfo
  | [], _ => none
  | (q, i) :: rest, p => if p = q then some i else statFS rest p

/-- Create or overwrite the entry at `p` (shadowing any previous one). -/
def setEntry (fs : FS) (p : String) (i : FileInfo) : FS :=
  (p, i) :: fs

/-- Model of `os.Remove` on a file: drop every entry at `p`. -/
def removeEntry : FS → String → FS
  | [], _ => []
  | (q, i) :: rest, p => if q = p then removeEntry rest p else (q, i) :: removeEntry rest p

/-- Error kinds produced by the program, tagged by the classification the
spec uses (NotFound, UnsupportedExtension, NotExecutable, IOFailure,
CompilationFailure); each carries the data the corresponding Go error
message interpolates. -/
inductive Err where
  | notFound (msg : String)
  | unsupportedExtension (ext : String)
  | notExecutable (name : String)
  | ioFailure (msg : String)
  | compileFailure (msg : String)
deriving DecidableEq, Repr

/-- The message text of an error, mirroring the Go `fmt.Errorf` /
`fmt.Printf` format strings. -/
def errMsg : Err → String
  | .notFound m => m
  | .unsupportedExtension ext => "unsupported file extension: " ++ ext
  | .notExecutable name =>
      "Script " ++ name ++ " is not executable. Run 'scripts ready " ++ name ++
        "' to make it executable."
  | .ioFailure m => m
  | .compileFailure m => m

/-- Embedding of `isExecutable` (main.go:17-24): stat the path; `false` on
stat failure, else test the owner-execute bit `0100`. -/
def isExecutable (fs : FS) (path : String) : Bool :=
  match statFS fs path with
  | none => false
  | some info => info.mode &&& 0o100 != 0

/-- Embedding of `makeExecutable` (main.go:26-34): stat the path
(propagating a not-found error), then chmod to `mode | 0100`. -/
def makeExecutable (fs : FS) (path : String) : Except Err FS :=
  match statFS fs path with
  | none => .error (.notFound ("stat " ++ path ++ ": no such file or directory"))
  | some info =>
      .ok (setEntry fs path { info with mode := info.mode ||| 0o100 })

/-- Model of `os.ReadFile`: fails if the entry is absent or a directory. -/
def readFileFS (fs : FS) (p : String) : Except Err String :=
  match statFS fs p with
  | none => .error (.notFound ("open " ++ p ++ ": no such file or directory"))
  | some i =>
      if i.isDir then .error (.ioFailure ("read " ++ p ++ ": is a directory"))
      else .ok i.content

/-- Model of `os.WriteFile` with permission `0644`: creates the file with
mode `0644`, or truncates an existing regular file keeping its mode;
fails if a directory sits at the path. -/
def writeFileFS (fs : FS) (p : String) (data : String) : Except Err FS :=
  match statFS fs p with
  | none => .ok (setEntry fs p ⟨false, 0o644, data⟩)
  | some i =>
      if i.isDir then .error (.ioFailure ("open " ++ p ++ ": is a directory"))
      else .ok (setEntry fs p { i with content := data })

/-- Model of `os.MkdirAll(p, 0755)`: no-op if a directory already exists
at `p`, creates it if absent, fails if a non-directory sits there.
(Intermediate path components are not modelled.) -/
def mkdirAll (fs : FS) (p : String) : Except Err FS :=
  match statFS fs p with
  | none => .ok (setEntry fs p ⟨true, 0o755, ""⟩)
  | some i =>
      if i.isDir then .ok fs
      else .error (.ioFailure ("mkdir " ++ p ++ ": not a directory"))

/-! ### Path and string helpers used by the program -/

/-- Model of `filepath.Join(dir, name)` for a nonempty `dir` and a
relative `name`, as used throughout `main.go`.  The `Clean`
normalization step of Go's `Join` is not modelled (no claim concerns
path normalization). -/
def filepathJoin (dir name : String) : String :=
  dir ++ "/" ++ name

/-- Model of `strings.HasSuffix`. -/
def hasSuffix (s suffix : String) : Bool :=
  suffix.data.isSuffixOf s.data

/-- Model of `strings.TrimSuffix`: drop the suffix when present. -/
def trimSuffix (s suffix : String) : String :=
  if hasSuffix s suffix then ⟨s.data.take (s.data.length - suffix.data.length)⟩ else s

/-- Model of `filepath.Base`: `"."` for the empty path, `"/"` when the
path is all separators, otherwise the last element after stripping
trailing separators. -/
def filepathBase (p : String) : String :=
  if p = "" then "."
  else
    let l := (p.data.reverse.dropWhile (fun c => c = '/')).reverse
    if l = [] then "/"
    else ⟨(l.reverse.takeWhile (fun c => c ≠ '/')).reverse⟩

/-- Model of `filepath.Ext`: the suffix starting at the final dot of the
final path element; empty when that element has no dot. -/
def filepathExt (p : String) : String :=
  let seg := p.data.reverse.takeWhile (fun c => c ≠ '/')
  if seg.contains '.' then ⟨((seg.takeWhile (fun c => c ≠ '.')) ++ ['.']).reverse⟩
  else ""

/-- Model of `filepath.Dir`: everything before the last separator
(trailing separators stripped), `"."` when there is none, `"/"` for the
root.  As with `filepathJoin`, `Clean` is not modelled. -/
def filepathDir (p : String) : String :=
  let beforeSlash := (p.data.reverse.dropWhile (fun c => c ≠ '/')).reverse
  let trimmed := (beforeSlash.reverse.dropWhile (fun c => c = '/')).reverse
  if trimmed = [] then (if beforeSlash.head? = some '/' then "/" else ".") else ⟨trimmed⟩

/-- Model of `strings.ToLower` restricted to ASCII (the extensions the
program compares against are ASCII). -/
def toLowerStr (s : String) : String :=
  ⟨s.data.map Char.toLower⟩

/-! ### Embeddings of the program's operations -/

/-- The two-field configuration record (main.go:12-15). -/
structure Config where
  scriptDir : String
  binDir : String
deriving DecidableEq, Repr

/-- Embedding of `addScript` (main.go:198-235).  The Go function mutates
the global filesystem; we return the final filesystem state together
with the outcome, so that partial mutations before a failure are
visible. -/
def addScript (fs : FS) (scriptPath : String) (config : Config) : FS × Except Err Unit :=
  match statFS fs scriptPath with
  | none => (fs, .error (.notFound ("script " ++ scriptPath ++ " does not exist")))
  | some _ =>
    if ¬ hasSuffix scriptPath ".sh" then
      (fs, .error (.ioFailure "script must have .sh extension"))
    else
      let scriptName := trimSuffix (filepathBase scriptPath) ".sh"
      let destPath := filepathJoin config.scriptDir (scriptName ++ ".sh")
      match mkdirAll fs config.scriptDir with
      | .error e => (fs, .error (.ioFailure ("failed to create scripts directory: " ++ errMsg e)))
      | .ok fs1 =>
        match readFileFS fs1 scriptPath with
        | .error e => (fs1, .error (.ioFailure ("failed to read source script: " ++ errMsg e)))
        | .ok sourceData =>
          match writeFileFS fs1 destPath sourceData with
          | .error e =>
              (fs1, .error (.ioFailure ("failed to write script to scripts_bin: " ++ errMsg e)))
          | .ok fs2 =>
            match makeExecutable fs2 destPath with
            | .error e =>
                (fs2, .error (.ioFailure ("failed to make script executable: " ++ errMsg e)))
            | .ok fs3 => (fs3, .ok ())

/-- Embedding of the `ready <name>` CLI branch (main.go:486-502): the
script path is `Join(scriptDir, scriptName + ".sh")` — the `".sh"`
suffix is appended unconditionally — then a missing file is a NotFound
failure and otherwise `makeExecutable` is applied. -/
def readyCmd (fs : FS) (config : Config) (scriptName : String) : Except Err FS :=
  let scriptPath := filepathJoin config.scriptDir (scriptName ++ ".sh")
  match statFS fs scriptPath with
  | none =>
      .error (.notFound ("Script " ++ scriptName ++ " not found in scripts_bin (" ++
        config.scriptDir ++ ")"))
  | some _ => makeExecutable fs scriptPath

/-- Embedding of the single-file branch of `readyScripts`
(main.go:180-193): `".sh"` is appended only when the path does not
already end in `".sh"`; an already-executable file is left alone. -/
def readySingleFile (fs : FS) (path : String) : FS × Except Err Unit :=
  let path' := if hasSuffix path ".sh" then path else path ++ ".sh"
  if isExecutable fs path' then (fs, .ok ())
  else
    match makeExecutable fs path' with
    | .error e =>
        (fs, .error (.ioFailure ("failed to make " ++ path' ++ " executable: " ++ errMsg e)))
    | .ok fs' => (fs', .ok ())

/-- Embedding of the `rm <name>` CLI branch without `--bin`
(main.go:604-618): the script path is `Join(scriptDir, name + ".sh")`
with the suffix appended unconditionally; a missing file is a NotFound
failure, otherwise the file is removed. -/
def rmScriptCmd (fs : FS) (config : Config) (name : String) : FS × Except Err Unit :=
  let scriptPath := filepathJoin config.scriptDir (name ++ ".sh")
  match statFS fs scriptPath with
  | none =>
      (fs, .error (.notFound ("Script " ++ name ++ " not found in " ++ config.scriptDir)))
  | some _ => (removeEntry fs scriptPath, .ok ())

/-- Result of spawning an external process: the oracle's verdict
(`.ok` for exit status zero). -/
abbrev Spawn := String → List String → Except Err Unit

/-- Embedding of the default run-script branch of `main`
(main.go:687-712), parameterized by a `spawn` oracle standing for
`exec.Command(scriptPath, args...).Run()` with stdout/stderr wired to
the parent.  The first component records the (at most one) spawn
performed, with the argument vector forwarded verbatim; the second is
the surfaced outcome. -/
def runScriptCmd (spawn : Spawn) (fs : FS) (config : Config) (scriptName : String)
    (args : List String) : Option (String × List String) × Except Err Unit :=
  let scriptPath := filepathJoin config.scriptDir (scriptName ++ ".sh")
  match statFS fs scriptPath with
  | none =>
      (none, .error (.notFound ("Script " ++ scriptName ++ " not found in " ++
        config.scriptDir)))
  | some _ =>
    if ¬ isExecutable fs scriptPath then (none, .error (.notExecutable scriptName))
    else (some (scriptPath, args), spawn scriptPath args)

/-- The CLI branches of `main` (main.go:447-687 plus the default). -/
inductive Branch where
  | help | ready | add | compile | rm | list | runScript
deriving DecidableEq, Repr

/-- The keywords `main` recognizes before falling through to the
run-script default. -/
def keywords : List String :=
  ["list", "ready", "add", "compile", "rm", "help", "-h", "--help"]

/-- Embedding of the dispatch of `main` on the first CLI token
(main.go:444-687): a chain of equality tests, in source order, with the
run-script branch as the default. -/
def route (command : String) : Branch :=
  if command = "help" ∨ command = "-h" ∨ command = "--help" then .help
  else if command = "ready" then .ready
  else if command = "add" then .add
  else if command = "compile" then .compile
  else if command = "rm" then .rm
  else if command = "list" then .list
  else .runScript

/-- One entry of an `os.ReadDir` listing: name and directory flag. -/
structure DirEntry where
  name : String
  isDir : Bool
deriving DecidableEq, Repr

/-- Embedding of the binaries section of the `list` CLI branch
(main.go:650-677).  `readDirResult` stands for the outcome of
`os.ReadDir(config.BinDir)`; `none` models a read error, which the code
silently skips (`if err == nil`).  The result is the list of binary
names the command prints. -/
def listBinaries (readDirResult : Option (List DirEntry)) (fs : FS) (binDir : String) :
    List String :=
  match statFS fs binDir with
  | none => []
  | some _ =>
    match readDirResult with
    | none => []
    | some entries =>
      entries.filterMap (fun e =>
        if !e.isDir && e.name != "scripts" && isExecutable fs (filepathJoin binDir e.name)
        then some e.name else none)

/-- The six toolchain dispatch targets of `compileSource`
(main.go:259-274). -/
inductive Lang where
  | go | python | v | rust | c | cpp
deriving DecidableEq, Repr

/-- The extension switch of `compileSource` (main.go:259-274): the
lower-cased extension selects a toolchain, with `.cpp`, `.cc` and
`.cxx` sharing the C++ branch; anything else is unsupported. -/
def langOfExt (ext : String) : Option Lang :=
  if ext = ".go" then some .go
  else if ext = ".py" then some .python
  else if ext = ".v" then some .v
  else if ext = ".rs" then some .rust
  else if ext = ".c" then some .c
  else if ext = ".cpp" ∨ ext = ".cc" ∨ ext = ".cxx" then some .cpp
  else none

/-- Oracle standing for the per-language helpers `compileGo`,
`compilePython`, ... (main.go:289-358): given the language, source path
and output path it runs the external toolchain, returning the mutated
filesystem and the toolchain's verdict. -/
abbrev ToolRun := Lang → String → String → FS → FS × Except Err Unit

/-- Outcome of a `compileSource` invocation: final filesystem, the list
of toolchain invocations performed (language, source path, output
path), and the returned value. -/
structure CompileResult where
  fs : FS
  invoked : List (Lang × String × String)
  out : Except Err Unit
deriving Repr

/-- Embedding of `compileSource` (main.go:237-287): check the source
exists, `MkdirAll` the binaries directory, derive the output name
(explicit `binaryName`, else the base name with its extension
stripped), dispatch on the lower-cased extension, and on toolchain
success chmod the produced binary. -/
def compileSource (run : ToolRun) (fs : FS) (config : Config)
    (sourcePath binaryName : String) : CompileResult :=
  match statFS fs sourcePath with
  | none => ⟨fs, [], .error (.notFound ("source file " ++ sourcePath ++ " does not exist"))⟩
  | some _ =>
    match mkdirAll fs config.binDir with
    | .error e => ⟨fs, [], .error (.ioFailure ("failed to create bin directory: " ++ errMsg e))⟩
    | .ok fs1 =>
      let ext := toLowerStr (filepathExt sourcePath)
      let name := if binaryName = "" then trimSuffix (filepathBase sourcePath) (filepathExt sourcePath)
                  else binaryName
      let outputPath := filepathJoin config.binDir name
      match langOfExt ext with
      | none => ⟨fs1, [], .error (.unsupportedExtension ext)⟩
      | some lang =>
        match run lang sourcePath outputPath fs1 with
        | (fs2, .error e) => ⟨fs2, [(lang, sourcePath, outputPath)], .error e⟩
        | (fs2, .ok _) =>
          match makeExecutable fs2 outputPath with
          | .error e =>
              ⟨fs2, [(lang, sourcePath, outputPath)],
                .error (.ioFailure ("failed to make binary executable: " ++ errMsg e))⟩
          | .ok fs3 => ⟨fs3, [(lang, sourcePath, outputPath)], .ok ()⟩

/-! ### Config store: location heuristic, JSON encoding and decoding -/

/-- Process-level inputs of the config location heuristic:
`os.Executable()`, `os.Getwd()` and `os.UserHomeDir()`, each of which
can fail (`none`). -/
structure Env where
  execPath : Option String
  cwd : Option String
  homeDir : Option String

/-- Embedding of `expandPath` (main.go:36-45): replace a leading tilde
by the home directory.  The Go code checks `HasPrefix(path, "~")` and
then replaces the first occurrence of `"~"`, which is that leading
one. -/
def expandPath (env : Env) (path : String) : String :=
  if path.startsWith "~" then
    match env.homeDir with
    | none => path
    | some home => home ++ path.drop 1
  else path

/-- The scripts-directory location heuristic of `loadConfig`
(main.go:49-81), duplicated verbatim inside `saveConfig`
(main.go:114-146): prefer the executable's directory when it contains a
`scripts_bin` subdirectory or an executable `scripts` file, then the
working directory when it contains a `scripts_bin` subdirectory, then
`<home>/.config/scripts`; `none` when even the home directory is
unavailable (the Go code then returns an error). -/
def resolveScriptsDir (env : Env) (fs : FS) : Option String :=
  let fromExec : Option String :=
    match env.execPath with
    | none => none
    | some execPath =>
      let execDir := filepathDir execPath
      if (statFS fs (filepathJoin execDir "scripts_bin")).any (fun i => i.isDir) then
        some execDir
      else if (statFS fs (filepathJoin execDir "scripts")).any
          (fun i => i.mode &&& 0o100 != 0) then
        some execDir
      else none
  match fromExec with
  | some d => some d
  | none =>
    let fromCwd : Option String :=
      match env.cwd with
      | none => none
      | some cwd =>
          if (statFS fs (filepathJoin cwd "scripts_bin")).any (fun i => i.isDir) then some cwd
          else none
    match fromCwd with
    | some d => some d
    | none =>
      match env.homeDir with
      | none => none
      | some home => some (filepathJoin (filepathJoin home ".config") "scripts")

/-- Lower-case hexadecimal digit for a value below 16. -/
def hexDigit (n : Nat) : Char :=
  if n < 10 then Char.ofNat (48 + n) else Char.ofNat (87 + n)

/-- A six-character `\uXXXX` escape for a code point below 0x10000. -/
def hexU (n : Nat) : List Char :=
  ['\\', 'u', hexDigit (n / 4096 % 16), hexDigit (n / 256 % 16),
    hexDigit (n / 16 % 16), hexDigit (n % 16)]

/-- Per-character JSON string escaping as performed by `encoding/json`'s
default encoder (HTML escaping on): quote, backslash, newline, carriage
return and tab get two-character escapes; remaining control characters,
the HTML-relevant characters and U+2028/U+2029 get `\u` escapes; every
other character is emitted as itself. -/
def escC (c : Char) : List Char :=
  if c = '"' then ['\\', '"']
  else if c = '\\' then ['\\', '\\']
  else if c = '\n' then ['\\', 'n']
  else if c = '\r' then ['\\', 'r']
  else if c = '\t' then ['\\', 't']
  else if c.toNat < 0x20 then hexU c.toNat
  else if c = '<' ∨ c = '>' ∨ c = '&' then hexU c.toNat
  else if c.toNat = 0x2028 ∨ c.toNat = 0x2029 then hexU c.toNat
  else [c]

def escapeChars : List Char → List Char
  | [] => []
  | c :: rest => escC c ++ escapeChars rest

def escapeString (s : String) : String := ⟨escapeChars s.data⟩

/-- The exact output of `json.MarshalIndent(config, "", "  ")`
(main.go:150) for the two-field `Config` struct. -/
def marshalConfig (c : Config) : String :=
  "\x7b\n  \"scriptDir\": \"" ++ escapeString c.scriptDir ++ "\",\n  \"binDir\": \"" ++
    escapeString c.binDir ++ "\"\n\x7d"

/-- Numeric value of a hexadecimal digit character. -/
def hexVal (c : Char) : Option Nat :=
  if '0' ≤ c ∧ c ≤ '9' then some (c.toNat - 48)
  else if 'a' ≤ c ∧ c ≤ 'f' then some (c.toNat - 87)
  else if 'A' ≤ c ∧ c ≤ 'F' then some (c.toNat - 55)
  else none

/-- Decoding of the two-character JSON escapes. -/
def escCharOf (e : Char) : Option Char :=
  if e = '"' then some '"'
  else if e = '\\' then some '\\'
  else if e = '/' then some '/'
  else if e = 'n' then some '\n'
  else if e = 'r' then some '\r'
  else if e = 't' then some '\t'
  else if e = 'b' then some (Char.ofNat 8)
  else if e = 'f' then some (Char.ofNat 12)
  else none

/-- Parse the remainder of a JSON string body up to and including its
closing quote, decoding escapes; returns the decoded characters and the
input following the closing quote. -/
def parseStringBody : List Char → Option (List Char × List Char)
  | [] => none
  | c :: rest =>
    if c = '"' then some ([], rest)
    else if c = '\\' then
      match rest with
      | [] => none
      | e :: rest2 =>
        if e = 'u' then
          match rest2 with
          | a :: b :: c2 :: d :: rest3 =>
            match hexVal a, hexVal b, hexVal c2, hexVal d with
            | some va, some vb, some vc, some vd =>
              (fun p => (Char.ofNat ((((va * 16 + vb) * 16 + vc) * 16 + vd)) :: p.1, p.2)) <$>
                parseStringBody rest3
            | _, _, _, _ => none
          | _ => none
        else
          match escCharOf e with
          | none => none
          | some decoded => (fun p => (decoded :: p.1, p.2)) <$> parseStringBody rest2
    else (fun p => (c :: p.1, p.2)) <$> parseStringBody rest

/-- Consume an expected literal prefix. -/
def dropPrefixChars : List Char → List Char → Option (List Char)
  | [], l => some l
  | _ :: _, [] => none
  | p :: ps, c :: cs => if c = p then dropPrefixChars ps cs else none

/-- Model of `json.Unmarshal` into the `Config` struct (main.go:105),
specialized to the class of documents `marshalConfig` produces; the
library decoder's tolerance for other field orders and whitespace is
not needed by any claim. -/
def unmarshalConfig (s : String) : Option Config :=
  match dropPrefixChars "\x7b\n  \"scriptDir\": \"".data s.data with
  | none => none
  | some r1 =>
    match parseStringBody r1 with
    | none => none
    | some (sd, r2) =>
      match dropPrefixChars ",\n  \"binDir\": \"".data r2 with
      | none => none
      | some r3 =>
        match parseStringBody r3 with
        | none => none
        | some (bd, r4) =>
          match dropPrefixChars "\n\x7d".data r4 with
          | none => none
          | some r5 => if r5 = [] then some ⟨⟨sd⟩, ⟨bd⟩⟩ else none

/-- Embedding of `saveConfig` (main.go:112-160): locate the scripts
directory, marshal the config and write it to `.config.json` there. -/
def saveConfig (env : Env) (fs : FS) (config : Config) : Except Err FS :=
  match resolveScriptsDir env fs with
  | none => .error (.ioFailure "could not determine config directory")
  | some scriptsDir =>
    match writeFileFS fs (filepathJoin scriptsDir ".config.json") (marshalConfig config) with
    | .error e => .error (.ioFailure ("failed to write config file: " ++ errMsg e))
    | .ok fs2 => .ok fs2

/-- Embedding of `loadConfig` (main.go:47-110): locate the scripts
directory; when `.config.json` is absent, synthesize and persist the
tilde-expanded defaults; otherwise read and unmarshal it.  Returns the
config together with the possibly mutated filesystem. -/
def loadConfig (env : Env) (fs : FS) : Except Err (Config × FS) :=
  match resolveScriptsDir env fs with
  | none => .error (.ioFailure "could not determine config directory")
  | some scriptsDir =>
    match statFS fs (filepathJoin scriptsDir ".config.json") with
    | none =>
      let defaultConfig : Config :=
        ⟨expandPath env "~/code/personal/scripts/scripts_bin", expandPath env "~/opt/programs"⟩
      match saveConfig env fs defaultConfig with
      | .error e => .error (.ioFailure ("failed to create default config: " ++ errMsg e))
      | .ok fs2 => .ok (defaultConfig, fs2)
    | some _ =>
      match readFileFS fs (filepathJoin scriptsDir ".config.json") with
      | .error e => .error (.ioFailure ("failed to read config file: " ++ errMsg e))
      | .ok data =>
        match unmarshalConfig data with
        | none => .error (.ioFailure "failed to parse config file")
        | some config => .ok (config, fs)

/-! Basic lemmas about the filesystem state. -/

theorem statFS_setEntry (fs : FS) (p q : String) (i : FileInfo) :
    statFS (setEntry fs p i) q = if q = p then some i else statFS fs q := by
  simp [setEntry, statFS]

theorem statFS_removeEntry (fs : FS) (p q : String) :
    statFS (removeEntry fs p) q = if q = p then none else statFS fs q := by
  induction fs with
  | nil => simp [removeEntry, statFS]
  | cons e rest ih =>
      obtain ⟨a, j⟩ := e
      by_cases hap : a = p
      · subst hap
        rw [show removeEntry ((a, j) :: rest) a = removeEntry rest a by
              simp [removeEntry], ih]
        by_cases hq : q = a
        · simp [hq]
        · simp [statFS, hq]
      · rw [show removeEntry ((a, j) :: rest) p = (a, j) :: removeEntry rest p by
              simp [removeEntry, hap]]
        by_cases hq : q = a
        · subst hq
          simp [statFS, hap]
        · simp [statFS, hq, ih]

theorem mkdirAll_ok (fs fs' : FS) (d : String) (h : mkdirAll fs d = .ok fs') :
    (∃ i, statFS fs' d = some i ∧ i.isDir = true) ∧
      ∀ p, p ≠ d → statFS fs' p = statFS fs p := by
  unfold mkdirAll at h
  cases hst : statFS fs d with
  | none =>
      rw [hst] at h
      cases h
      refine ⟨⟨⟨true, 0o755, ""⟩, ?_, rfl⟩, ?_⟩
      · simp [statFS_setEntry]
      · intro p hp
        simp [statFS_setEntry, hp]
  | some i =>
      rw [hst] at h
      by_cases hd : i.isDir
      · simp only [hd, if_true] at h
        cases h
        exact ⟨⟨i, hst, hd⟩, fun p _ => rfl⟩
      · simp [hd] at h


/-! ### Shared helper lemmas -/

theorem lor_exec_and (m : Nat) : (m ||| 0o100) &&& 0o100 = 64 := by
  have hbit : (m ||| 0o100).testBit 6 = true := by
    rw [Nat.testBit_or]
    simp [show (0o100 : Nat).testBit 6 = true by decide]
  calc (m ||| 0o100) &&& 0o100
      = (m ||| 0o100) &&& 2 ^ 6 := by norm_num
    _ = ((m ||| 0o100).testBit 6).toNat * 2 ^ 6 := Nat.and_two_pow _ 6
    _ = 64 := by rw [hbit]; rfl

theorem isExecutable_after_chmod (fs : FS) (p : String) (i : FileInfo) :
    isExecutable (setEntry fs p { i with mode := i.mode ||| 0o100 }) p = true := by
  unfold isExecutable
  rw [statFS_setEntry]
  simp [lor_exec_and]

theorem makeExecutable_of_stat (fs : FS) (p : String) (i : FileInfo)
    (h : statFS fs p = some i) :
    makeExecutable fs p = .ok (setEntry fs p { i with mode := i.mode ||| 0o100 }) := by
  unfold makeExecutable
  rw [h]

/-! ### C7: totality and characterization of `isExecutable` -/

/-- C7: `isExecutable` is a total boolean function (it is a Lean `def`
into `Bool`, hence never errors or panics); it returns `false` whenever
`stat` fails, and `true` exactly when the stat succeeds and the
owner-execute bit `0100` of the mode is set. -/
theorem isExecutable_total_spec (fs : FS) (p : String) :
    (statFS fs p = none → isExecutable fs p = false) ∧
      (isExecutable fs p = true ↔
        ∃ i, statFS fs p = some i ∧ i.mode &&& 0o100 ≠ 0) := by
  unfold isExecutable
  cases hst : statFS fs p with
  | none => simp
  | some i =>
      refine ⟨by simp, ?_⟩
      constructor
      · intro h
        exact ⟨i, rfl, by simpa using h⟩
      · rintro ⟨j, hj, hbit⟩
        cases hj
        simpa using hbit

/-- Witness for C7 at a concrete filesystem: a missing path yields
`false`, and a file with mode `0755` is reported executable. -/
theorem isExecutable_total_spec_witness :
    isExecutable [("/d/a.sh", ⟨false, 0o755, "x"⟩)] "/d/missing" = false ∧
      isExecutable [("/d/a.sh", ⟨false, 0o755, "x"⟩)] "/d/a.sh" = true := by
  constructor
  · exact (isExecutable_total_spec [("/d/a.sh", ⟨false, 0o755, "x"⟩)] "/d/missing").1
      (by decide)
  · exact (isExecutable_total_spec [("/d/a.sh", ⟨false, 0o755, "x"⟩)] "/d/a.sh").2.2
      ⟨⟨false, 0o755, "x"⟩, by decide, by decide⟩

/-! ### C6: `makeExecutable` adds the owner-execute bit and preserves
the other mode bits -/

/-- C6: on an existing file, `makeExecutable` succeeds and replaces the
mode by `mode | 0100`; afterwards `isExecutable` is true, every
previously set mode bit is still set (in particular read/write bits),
and the group-execute (bit 3, i.e. `0010`) and other-execute (bit 0,
i.e. `0001`) bits are unchanged. -/
theorem makeExecutable_spec (fs : FS) (p : String) (info : FileInfo)
    (h : statFS fs p = some info) :
    ∃ fs', makeExecutable fs p = .ok fs' ∧
      statFS fs' p = some { info with mode := info.mode ||| 0o100 } ∧
      isExecutable fs' p = true ∧
      (∀ i, info.mode.testBit i = true → (info.mode ||| 0o100).testBit i = true) ∧
      (info.mode ||| 0o100).testBit 3 = info.mode.testBit 3 ∧
      (info.mode ||| 0o100).testBit 0 = info.mode.testBit 0 := by
  refine ⟨setEntry fs p { info with mode := info.mode ||| 0o100 }, ?_, ?_, ?_, ?_, ?_, ?_⟩
  · exact makeExecutable_of_stat fs p info h
  · simp [statFS_setEntry]
  · exact isExecutable_after_chmod fs p info
  · intro i hi
    rw [Nat.testBit_or, hi]
    rfl
  · rw [Nat.testBit_or]
    simp [show (0o100 : Nat).testBit 3 = false by decide]
  · rw [Nat.testBit_or]
    simp [show (0o100 : Nat).testBit 0 = false by decide]

/-- Witness for C6: a concrete file with mode `0644` (read/write, not
executable) exists, and the theorem applies to it. -/
theorem makeExecutable_spec_witness :
    statFS [("/d/a.sh", ⟨false, 0o644, "x"⟩)] "/d/a.sh" = some ⟨false, 0o644, "x"⟩ ∧
      ∃ fs', makeExecutable [("/d/a.sh", ⟨false, 0o644, "x"⟩)] "/d/a.sh" = .ok fs' ∧
        statFS fs' "/d/a.sh" = some { isDir := false, mode := 0o644 ||| 0o100, content := "x" } ∧
        isExecutable fs' "/d/a.sh" = true ∧
        (∀ i, (0o644 : Nat).testBit i = true → ((0o644 : Nat) ||| 0o100).testBit i = true) ∧
        ((0o644 : Nat) ||| 0o100).testBit 3 = (0o644 : Nat).testBit 3 ∧
        ((0o644 : Nat) ||| 0o100).testBit 0 = (0o644 : Nat).testBit 0 :=
  ⟨by decide,
    makeExecutable_spec [("/d/a.sh", ⟨false, 0o644, "x"⟩)] "/d/a.sh"
      ⟨false, 0o644, "x"⟩ (by decide)⟩

/-! ### C9: `rm` unconditionally appends `.sh` -/

/-- C9: the `rm` branch without `--bin` always appends `".sh"` to the
given name before resolving it in the scripts directory; hence a name
that already ends in `".sh"` targets `<scriptDir>/<name>.sh.sh`, the
removal succeeds exactly when that doubled-suffix file exists, and an
absent doubled-suffix file yields a NotFound failure with no
mutation. -/
theorem rmScript_double_suffix (fs : FS) (config : Config) (base : String) :
    (∀ name : String, rmScriptCmd fs config name =
      (match statFS fs (filepathJoin config.scriptDir (name ++ ".sh")) with
       | none => (fs, Except.error (Err.notFound
           ("Script " ++ name ++ " not found in " ++ config.scriptDir)))
       | some _ =>
          (removeEntry fs (filepathJoin config.scriptDir (name ++ ".sh")), Except.ok ()))) ∧
    ((rmScriptCmd fs config (base ++ ".sh")).2 = .ok () ↔
      statFS fs (filepathJoin config.scriptDir (base ++ ".sh.sh")) ≠ none) ∧
    (statFS fs (filepathJoin config.scriptDir (base ++ ".sh.sh")) = none →
      rmScriptCmd fs config (base ++ ".sh") =
        (fs, .error (.notFound
          ("Script " ++ (base ++ ".sh") ++ " not found in " ++ config.scriptDir)))) := by
  have hpath : (base ++ ".sh") ++ ".sh" = base ++ ".sh.sh" := by
    rw [String.append_assoc]
    exact congrArg (fun t => base ++ t) (by decide)
  refine ⟨?_, ?_, ?_⟩
  · intro name
    cases h : statFS fs (filepathJoin config.scriptDir (name ++ ".sh")) <;>
      simp [rmScriptCmd, h]
  · simp only [rmScriptCmd, hpath]
    cases h : statFS fs (filepathJoin config.scriptDir (base ++ ".sh.sh")) <;> simp [h]
  · intro h
    simp only [rmScriptCmd, hpath, h]

/-- Witness for C9 at a concrete state: the scripts directory holds
`foo.sh` but not `foo.sh.sh`, so `rm foo.sh` fails with NotFound. -/
theorem rmScript_double_suffix_witness :
    statFS [("d/foo.sh", ⟨false, 0o755, "x"⟩)] "d/foo.sh.sh" = none ∧
      rmScriptCmd [("d/foo.sh", ⟨false, 0o755, "x"⟩)] ⟨"d", "b"⟩ "foo.sh" =
        ([("d/foo.sh", ⟨false, 0o755, "x"⟩)],
          .error (.notFound ("Script " ++ ("foo" ++ ".sh") ++ " not found in " ++ "d"))) := by
  constructor
  · decide
  · exact (rmScript_double_suffix [("d/foo.sh", ⟨false, 0o755, "x"⟩)] ⟨"d", "b"⟩ "foo").2.2
      (by decide)

/-! ### C3: the single-script `ready` operation -/

/-- C3 counterexample: with scripts directory `"d"` containing the
non-executable script `d/foo.sh`, the CLI `ready` branch applied to the
name `"foo.sh"` (which already ends in `".sh"`) does not resolve to
`d/foo.sh`: it resolves to `d/foo.sh.sh` and fails with NotFound, even
though `d/foo.sh` exists — contradicting the claim that the suffix is
appended only when omitted. -/
theorem readyCmd_counterexample :
    statFS [("d/foo.sh", ⟨false, 0o644, "x"⟩)] "d/foo.sh" ≠ none ∧
      readyCmd [("d/foo.sh", ⟨false, 0o644, "x"⟩)] ⟨"d", "b"⟩ "foo.sh" =
        .error (.notFound "Script foo.sh not found in scripts_bin (d)") := by
  constructor
  · decide
  · rfl

/-- C3 amended: the CLI `ready <name>` branch appends `".sh"` to the
name unconditionally (a name already ending in `".sh"` resolves to
`<scriptDir>/<name>.sh.sh`); it fails with NotFound when the resolved
file is absent and otherwise sets the owner-execute bit on it. -/
theorem readyCmd_always_appends (fs : FS) (config : Config) (name : String) :
    (statFS fs (filepathJoin config.scriptDir (name ++ ".sh")) = none →
      readyCmd fs config name = .error (.notFound
        ("Script " ++ name ++ " not found in scripts_bin (" ++ config.scriptDir ++ ")"))) ∧
    (∀ i, statFS fs (filepathJoin config.scriptDir (name ++ ".sh")) = some i →
      ∃ fs', readyCmd fs config name = .ok fs' ∧
        statFS fs' (filepathJoin config.scriptDir (name ++ ".sh")) =
          some { i with mode := i.mode ||| 0o100 } ∧
        isExecutable fs' (filepathJoin config.scriptDir (name ++ ".sh")) = true) ∧
    (∀ base, name = base ++ ".sh" →
      filepathJoin config.scriptDir (name ++ ".sh") =
        filepathJoin config.scriptDir (base ++ ".sh.sh")) := by
  refine ⟨?_, ?_, ?_⟩
  · intro h
    simp only [readyCmd, h]
  · intro i h
    refine ⟨setEntry fs (filepathJoin config.scriptDir (name ++ ".sh"))
      { i with mode := i.mode ||| 0o100 }, ?_, ?_, ?_⟩
    · simp only [readyCmd, h]
      exact makeExecutable_of_stat _ _ _ h
    · simp [statFS_setEntry]
    · exact isExecutable_after_chmod _ _ _
  · intro base hb
    rw [hb, String.append_assoc]
    exact congrArg (fun t => filepathJoin config.scriptDir (base ++ t)) (by decide)

/-- Witness for C3's amended theorem: a present script `d/bar.sh`
(addressed by its base name `bar`) gets its execute bit set. -/
theorem readyCmd_always_appends_witness :
    statFS [("d/bar.sh", ⟨false, 0o644, "y"⟩)] "d/bar.sh" = some ⟨false, 0o644, "y"⟩ ∧
      ∃ fs', readyCmd [("d/bar.sh", ⟨false, 0o644, "y"⟩)] ⟨"d", "b"⟩ "bar" = .ok fs' ∧
        statFS fs' "d/bar.sh" =
          some { isDir := false, mode := 0o644 ||| 0o100, content := "y" } ∧
        isExecutable fs' "d/bar.sh" = true := by
  constructor
  · decide
  · exact (readyCmd_always_appends [("d/bar.sh", ⟨false, 0o644, "y"⟩)] ⟨"d", "b"⟩ "bar").2.1
      ⟨false, 0o644, "y"⟩ (by decide)

/-! ### C5: the default run-script branch of the router -/

/-- C5: a first CLI token that is none of the recognized keywords routes
to the run-script branch, which resolves `<scriptDir>/<token>.sh`; a
missing file is a NotFound failure, an existing file without the
owner-execute bit is a NotExecutable failure whose message directs the
user to the `ready` operation, and otherwise the script is spawned
exactly once with the remaining arguments forwarded verbatim and the
child's outcome surfaced unchanged. -/
theorem runScript_dispatch (spawn : Spawn) (fs : FS) (config : Config)
    (command : String) (args : List String) (hcmd : command ∉ keywords) :
    route command = .runScript ∧
    (statFS fs (filepathJoin config.scriptDir (command ++ ".sh")) = none →
      runScriptCmd spawn fs config command args =
        (none, .error (.notFound
          ("Script " ++ command ++ " not found in " ++ config.scriptDir)))) ∧
    (∀ i, statFS fs (filepathJoin config.scriptDir (command ++ ".sh")) = some i →
      isExecutable fs (filepathJoin config.scriptDir (command ++ ".sh")) = false →
      runScriptCmd spawn fs config command args =
        (none, .error (.notExecutable command)) ∧
      errMsg (.notExecutable command) =
        "Script " ++ command ++ " is not executable. Run 'scripts ready " ++ command ++
          "' to make it executable.") ∧
    (∀ i, statFS fs (filepathJoin config.scriptDir (command ++ ".sh")) = some i →
      isExecutable fs (filepathJoin config.scriptDir (command ++ ".sh")) = true →
      runScriptCmd spawn fs config command args =
        (some (filepathJoin config.scriptDir (command ++ ".sh"), args),
          spawn (filepathJoin config.scriptDir (command ++ ".sh")) args)) := by
  refine ⟨?_, ?_, ?_, ?_⟩
  · have hne : command ≠ "help" ∧ command ≠ "-h" ∧ command ≠ "--help" ∧
        command ≠ "ready" ∧ command ≠ "add" ∧ command ≠ "compile" ∧
        command ≠ "rm" ∧ command ≠ "list" := by
      refine ⟨?_, ?_, ?_, ?_, ?_, ?_, ?_, ?_⟩ <;>
        { intro h; subst h; exact hcmd (by simp [keywords]) }
    obtain ⟨h1, h2, h3, h4, h5, h6, h7, h8⟩ := hne
    simp [route, h1, h2, h3, h4, h5, h6, h7, h8]
  · intro h
    simp only [runScriptCmd, h]
  · intro i h hex
    refine ⟨?_, rfl⟩
    simp only [runScriptCmd, h]
    simp [hex]
  · intro i h hex
    simp only [runScriptCmd, h]
    simp [hex]

/-- Witness for C5: the token `"gitprune"` is not a keyword; on a state
holding an executable `d/gitprune.sh`, the branch spawns it with the
arguments forwarded. -/
theorem runScript_dispatch_witness :
    route "gitprune" = .runScript ∧
      runScriptCmd (fun _ _ => .ok ()) [("d/gitprune.sh", ⟨false, 0o755, "z"⟩)] ⟨"d", "b"⟩
          "gitprune" ["--dry-run"] =
        (some ("d/gitprune.sh", ["--dry-run"]), .ok ()) := by
  have h := runScript_dispatch (fun _ _ => .ok ())
    [("d/gitprune.sh", ⟨false, 0o755, "z"⟩)] ⟨"d", "b"⟩ "gitprune" ["--dry-run"] (by decide)
  exact ⟨h.1, h.2.2.2 ⟨false, 0o755, "z"⟩ (by decide) (by decide)⟩

/-! ### C10: the binaries section of `list` -/

/-- C10: a name appears in the binaries listing exactly when the
binaries directory stats successfully, the directory listing contains a
non-directory entry of that name, the name is not `"scripts"`, and the
owner-execute bit of the file is set (non-executable files are
silently omitted); a failed `ReadDir` is silently ignored, producing an
empty listing rather than an error. -/
theorem listBinaries_spec (fs : FS) (binDir : String) (entries : List DirEntry)
    (b : String) :
    (b ∈ listBinaries (some entries) fs binDir ↔
      statFS fs binDir ≠ none ∧
        ∃ e ∈ entries, e.name = b ∧ e.isDir = false ∧ b ≠ "scripts" ∧
          isExecutable fs (filepathJoin binDir b) = true) ∧
    listBinaries none fs binDir = [] := by
  constructor
  · cases hst : statFS fs binDir with
    | none => simp [listBinaries, hst]
    | some i =>
        simp only [listBinaries, hst, List.mem_filterMap]
        constructor
        · rintro ⟨e, he, hsome⟩
          split at hsome
          · injection hsome with hname
            subst hname
            rename_i hcond
            simp only [Bool.and_eq_true, Bool.not_eq_true', bne_iff_ne] at hcond
            exact ⟨by simp, e, he, rfl, hcond.1.1, hcond.1.2, hcond.2⟩
          · cases hsome
        · rintro ⟨-, e, he, hname, hdir, hscripts, hexec⟩
          subst hname
          refine ⟨e, he, ?_⟩
          have hcond : (!e.isDir && e.name != "scripts" &&
              isExecutable fs (filepathJoin binDir e.name)) = true := by
            simp only [Bool.and_eq_true, Bool.not_eq_true', bne_iff_ne]
            exact ⟨⟨hdir, hscripts⟩, hexec⟩
          rw [if_pos hcond]
  · cases hst : statFS fs binDir <;> simp [listBinaries, hst]

/-! ### C1: compile guards (missing source, unsupported extension) -/

/-- C1: `compileSource` on a missing source fails with NotFound, with no
toolchain invoked and no filesystem mutation; on an existing source
whose lower-cased extension is unsupported (given the `MkdirAll` of the
binaries directory succeeds) it fails with UnsupportedExtension naming
the rejected extension, with no toolchain invoked, every path other
than the binaries directory itself unchanged (in particular no output
file is created), and the extension switch recognizes exactly
`.go .py .v .rs .c .cpp .cc .cxx`. -/
theorem compileSource_guards (run : ToolRun) (fs : FS) (config : Config)
    (sourcePath binaryName : String) :
    (statFS fs sourcePath = none →
      compileSource run fs config sourcePath binaryName =
        ⟨fs, [], .error (.notFound ("source file " ++ sourcePath ++ " does not exist"))⟩) ∧
    (∀ i fs1, statFS fs sourcePath = some i →
      mkdirAll fs config.binDir = .ok fs1 →
      langOfExt (toLowerStr (filepathExt sourcePath)) = none →
      compileSource run fs config sourcePath binaryName =
        ⟨fs1, [], .error (.unsupportedExtension (toLowerStr (filepathExt sourcePath)))⟩ ∧
      (∀ p, p ≠ config.binDir → statFS fs1 p = statFS fs p) ∧
      (∃ j, statFS fs1 config.binDir = some j ∧ j.isDir = true)) ∧
    (∀ e : String, langOfExt e = none ↔
      e ∉ [".go", ".py", ".v", ".rs", ".c", ".cpp", ".cc", ".cxx"]) := by
  refine ⟨?_, ?_, ?_⟩
  · intro h
    simp only [compileSource, h]
  · intro i fs1 hi hmk hext
    have hfr := mkdirAll_ok fs fs1 config.binDir hmk
    refine ⟨?_, fun p hp => hfr.2 p hp, hfr.1⟩
    simp only [compileSource, hi, hmk, hext]
  · intro e
    unfold langOfExt
    split_ifs with h1 h2 h3 h4 h5 h6 <;>
      simp only [List.mem_cons, List.not_mem_nil, or_false] <;> tauto

/-- Witness for C1: a `.txt` source is rejected with
UnsupportedExtension after creating the binaries directory, and a
missing `.go` source is rejected with NotFound with nothing mutated
and no toolchain invoked. -/
theorem compileSource_guards_witness :
    compileSource (fun _ _ _ f => (f, .ok ())) [("notes.txt", ⟨false, 0o644, "t"⟩)]
        ⟨"s", "b"⟩ "notes.txt" "" =
      ⟨[("b", ⟨true, 0o755, ""⟩), ("notes.txt", ⟨false, 0o644, "t"⟩)], [],
        .error (.unsupportedExtension ".txt")⟩ ∧
    compileSource (fun _ _ _ f => (f, .ok ())) [] ⟨"s", "b"⟩ "missing.go" "" =
      ⟨[], [], .error (.notFound "source file missing.go does not exist")⟩ := by
  constructor
  · exact ((compileSource_guards (fun _ _ _ f => (f, .ok ()))
      [("notes.txt", ⟨false, 0o644, "t"⟩)] ⟨"s", "b"⟩ "notes.txt" "").2.1
      ⟨false, 0o644, "t"⟩ [("b", ⟨true, 0o755, ""⟩), ("notes.txt", ⟨false, 0o644, "t"⟩)]
      (by decide) (by rfl) (by decide)).1
  · exact (compileSource_guards (fun _ _ _ f => (f, .ok ())) []
      ⟨"s", "b"⟩ "missing.go" "").1 (by decide)

/-! ### C8: the binaries directory is created before the extension
dispatch; a failed dispatch mutates nothing else -/

/-- C8: once the source exists and `MkdirAll` succeeds, the binaries
directory exists as a directory in the resulting state regardless of
the extension; an UnsupportedExtension failure leaves exactly the
`MkdirAll` mutation (every path other than the binaries directory is
unchanged), and a toolchain failure returns the toolchain oracle's
state unchanged by the dispatcher, with exactly one invocation
recorded. -/
theorem compileSource_mkdir_frame (run : ToolRun) (fs fs1 : FS) (config : Config)
    (sourcePath binaryName : String) (i : FileInfo)
    (hsrc : statFS fs sourcePath = some i)
    (hmk : mkdirAll fs config.binDir = .ok fs1) :
    (∃ j, statFS fs1 config.binDir = some j ∧ j.isDir = true) ∧
    (langOfExt (toLowerStr (filepathExt sourcePath)) = none →
      compileSource run fs config sourcePath binaryName =
        ⟨fs1, [], .error (.unsupportedExtension (toLowerStr (filepathExt sourcePath)))⟩ ∧
      ∀ p, p ≠ config.binDir →
        statFS (compileSource run fs config sourcePath binaryName).fs p = statFS fs p) ∧
    (∀ lang, langOfExt (toLowerStr (filepathExt sourcePath)) = some lang →
      ∀ fs2 e,
        run lang sourcePath
            (filepathJoin config.binDir
              (if binaryName = "" then trimSuffix (filepathBase sourcePath) (filepathExt sourcePath)
               else binaryName)) fs1 = (fs2, .error e) →
        compileSource run fs config sourcePath binaryName =
          ⟨fs2,
            [(lang, sourcePath,
              filepathJoin config.binDir
                (if binaryName = "" then trimSuffix (filepathBase sourcePath) (filepathExt sourcePath)
                 else binaryName))], .error e⟩) := by
  have hfr := mkdirAll_ok fs fs1 config.binDir hmk
  refine ⟨hfr.1, ?_, ?_⟩
  · intro hext
    have heq : compileSource run fs config sourcePath binaryName =
        ⟨fs1, [], .error (.unsupportedExtension (toLowerStr (filepathExt sourcePath)))⟩ := by
      simp only [compileSource, hsrc, hmk, hext]
    refine ⟨heq, ?_⟩
    intro p hp
    rw [heq]
    exact hfr.2 p hp
  · intro lang hlang fs2 e hrun
    simp only [compileSource, hsrc, hmk, hlang, hrun]

/-- Witness for C8: compiling `m.go` with a failing Go toolchain leaves
the created binaries directory plus the oracle's (unchanged) state, with
exactly one recorded invocation targeting `b/m`. -/
theorem compileSource_mkdir_frame_witness :
    compileSource (fun _ _ _ f => (f, Except.error (Err.compileFailure "boom")))
        [("m.go", ⟨false, 0o644, "g"⟩)] ⟨"s", "b"⟩ "m.go" "" =
      ⟨[("b", ⟨true, 0o755, ""⟩), ("m.go", ⟨false, 0o644, "g"⟩)],
        [(.go, "m.go", "b/m")], .error (.compileFailure "boom")⟩ :=
  (compileSource_mkdir_frame (fun _ _ _ f => (f, Except.error (Err.compileFailure "boom")))
      [("m.go", ⟨false, 0o644, "g"⟩)]
      [("b", ⟨true, 0o755, ""⟩), ("m.go", ⟨false, 0o644, "g"⟩)]
      ⟨"s", "b"⟩ "m.go" "" ⟨false, 0o644, "g"⟩ (by decide) (by rfl)).2.2
    .go (by decide)
    [("b", ⟨true, 0o755, ""⟩), ("m.go", ⟨false, 0o644, "g"⟩)]
    (.compileFailure "boom") (by rfl)

/-! ### C4: `add` copies a script into the scripts directory -/

theorem filepathJoin_ne_left (d n : String) : filepathJoin d n ≠ d := by
  intro h
  have hd := congrArg (fun s => s.data.length) h
  simp only [filepathJoin, String.data_append, List.length_append] at hd
  have h1 : ("/" : String).data.length = 1 := rfl
  rw [h1] at hd
  omega

theorem trimSuffix_append_cancel (s t : String) (h : hasSuffix s t = true) :
    trimSuffix s t ++ t = s := by
  have h' := h
  unfold hasSuffix at h'
  rw [List.isSuffixOf_iff_suffix] at h'
  obtain ⟨pre, hpre⟩ := h'
  unfold trimSuffix
  rw [if_pos h]
  have hlen : s.data.length - t.data.length = pre.length := by
    rw [← hpre, List.length_append]
    omega
  have htake : s.data.take (s.data.length - t.data.length) = pre := by
    rw [hlen, ← hpre, List.take_left]
  rw [htake]
  have happ : (⟨pre⟩ : String) ++ t = ⟨pre ++ t.data⟩ := by
    cases t
    rfl
  rw [happ]
  cases s with
  | mk sd => exact congrArg String.mk hpre

theorem filepathBase_hasSuffix_sh (s : String) (h : hasSuffix s ".sh" = true) :
    hasSuffix (filepathBase s) ".sh" = true := by
  have h' := h
  unfold hasSuffix at h'
  rw [List.isSuffixOf_iff_suffix] at h'
  obtain ⟨pre, hpre⟩ := h'
  have hsd : s.data = pre ++ ['.', 's', 'h'] := by
    rw [← hpre]
  have hrev : s.data.reverse = 'h' :: 's' :: '.' :: pre.reverse := by
    rw [hsd]
    simp
  have hne : s ≠ "" := by
    intro he
    rw [he] at hsd
    exact absurd hsd.symm (by simp)
  have hdrop : s.data.reverse.dropWhile (fun c => c = '/') = s.data.reverse := by
    rw [hrev]
    exact List.dropWhile_cons_of_neg (by decide)
  have htake : s.data.reverse.takeWhile (fun c => c ≠ '/') =
      'h' :: 's' :: '.' :: pre.reverse.takeWhile (fun c => c ≠ '/') := by
    rw [hrev]
    rw [List.takeWhile_cons_of_pos (by decide), List.takeWhile_cons_of_pos (by decide),
      List.takeWhile_cons_of_pos (by decide)]
  have hbase : filepathBase s =
      ⟨(pre.reverse.takeWhile (fun c => c ≠ '/')).reverse ++ ['.', 's', 'h']⟩ := by
    simp only [filepathBase]
    rw [if_neg hne, hdrop, List.reverse_reverse, if_neg (by rw [hsd]; simp), htake]
    simp
  rw [hbase]
  unfold hasSuffix
  rw [List.isSuffixOf_iff_suffix]
  exact ⟨(pre.reverse.takeWhile (fun c => c ≠ '/')).reverse, rfl⟩

/-- C4: `addScript` on a missing source or a source without the `.sh`
extension fails with the filesystem unchanged; on an existing regular
`.sh` file (with the scripts directory creatable and the destination
not blocked by a directory) it succeeds, creating the scripts directory
if missing, writing a copy at `<scriptDir>/<basename>` whose content
equals the source's content at copy time, setting the owner-execute
bit on the copy, and leaving the (distinct) original untouched. -/
theorem addScript_spec (fs : FS) (src : String) (config : Config) :
    ((statFS fs src = none ∨ hasSuffix src ".sh" = false) →
      (addScript fs src config).1 = fs ∧ ∃ e, (addScript fs src config).2 = .error e) ∧
    (∀ info fs1, statFS fs src = some info → info.isDir = false →
      hasSuffix src ".sh" = true →
      mkdirAll fs config.scriptDir = .ok fs1 →
      (statFS fs (filepathJoin config.scriptDir (filepathBase src))).all
          (fun j => !j.isDir) = true →
      trimSuffix (filepathBase src) ".sh" ++ ".sh" = filepathBase src ∧
      ∃ fs3, addScript fs src config = (fs3, .ok ()) ∧
        (∃ d, statFS fs3 (filepathJoin config.scriptDir (filepathBase src)) = some d ∧
          d.isDir = false ∧ d.content = info.content) ∧
        isExecutable fs3 (filepathJoin config.scriptDir (filepathBase src)) = true ∧
        (∃ j, statFS fs3 config.scriptDir = some j ∧ j.isDir = true) ∧
        (src ≠ filepathJoin config.scriptDir (filepathBase src) →
          statFS fs3 src = statFS fs src)) := by
  constructor
  · rintro (h | h)
    · have heq : addScript fs src config =
          (fs, .error (.notFound ("script " ++ src ++ " does not exist"))) := by
        simp [addScript, h]
      rw [heq]
      exact ⟨rfl, _, rfl⟩
    · cases hstat : statFS fs src with
      | none =>
          have heq : addScript fs src config =
              (fs, .error (.notFound ("script " ++ src ++ " does not exist"))) := by
            simp [addScript, hstat]
          rw [heq]
          exact ⟨rfl, _, rfl⟩
      | some i =>
          have heq : addScript fs src config =
              (fs, .error (.ioFailure "script must have .sh extension")) := by
            simp [addScript, hstat, h]
          rw [heq]
          exact ⟨rfl, _, rfl⟩
  · intro info fs1 hstat hdir hsfx hmk hdest
    have hcancel : trimSuffix (filepathBase src) ".sh" ++ ".sh" = filepathBase src :=
      trimSuffix_append_cancel _ _ (filepathBase_hasSuffix_sh src hsfx)
    refine ⟨hcancel, ?_⟩
    have hfr := mkdirAll_ok fs fs1 config.scriptDir hmk
    have hsrcdir : src ≠ config.scriptDir := by
      intro he
      rw [← he] at hmk
      unfold mkdirAll at hmk
      rw [hstat] at hmk
      simp [hdir] at hmk
    have hstat1 : statFS fs1 src = some info := by
      rw [hfr.2 src hsrcdir, hstat]
    have hread : readFileFS fs1 src = .ok info.content := by
      unfold readFileFS
      rw [hstat1]
      simp [hdir]
    have hdne : filepathJoin config.scriptDir (filepathBase src) ≠ config.scriptDir :=
      filepathJoin_ne_left _ _
    have hstatd : statFS fs1 (filepathJoin config.scriptDir (filepathBase src)) =
        statFS fs (filepathJoin config.scriptDir (filepathBase src)) :=
      hfr.2 _ hdne
    have hwrite : ∃ X : FileInfo,
        writeFileFS fs1 (filepathJoin config.scriptDir (filepathBase src)) info.content =
          .ok (setEntry fs1 (filepathJoin config.scriptDir (filepathBase src)) X) ∧
        X.isDir = false ∧ X.content = info.content := by
      unfold writeFileFS
      rw [hstatd]
      cases hd : statFS fs (filepathJoin config.scriptDir (filepathBase src)) with
      | none => exact ⟨⟨false, 0o644, info.content⟩, rfl, rfl, rfl⟩
      | some j =>
          rw [hd] at hdest
          simp only [Option.all_some, Bool.not_eq_true'] at hdest
          refine ⟨{ j with content := info.content }, ?_, by simp [hdest], rfl⟩
          simp [hdest]
    obtain ⟨X, hw, hXdir, hXcont⟩ := hwrite
    have hstatw : statFS (setEntry fs1 (filepathJoin config.scriptDir (filepathBase src))
        X) (filepathJoin config.scriptDir (filepathBase src)) = some X := by
      rw [statFS_setEntry, if_pos rfl]
    have hchmod := makeExecutable_of_stat _ _ _ hstatw
    refine ⟨setEntry (setEntry fs1 (filepathJoin config.scriptDir (filepathBase src)) X)
      (filepathJoin config.scriptDir (filepathBase src)) { X with mode := X.mode ||| 0o100 },
      ?_, ?_, ?_, ?_, ?_⟩
    · simp only [addScript, hstat, hsfx, hcancel, hmk, hread, hw, hchmod,
        eq_self_iff_true, not_true, if_false]
    · refine ⟨{ X with mode := X.mode ||| 0o100 }, ?_, hXdir, hXcont⟩
      rw [statFS_setEntry, if_pos rfl]
    · exact isExecutable_after_chmod _ _ _
    · obtain ⟨j, hj, hjd⟩ := hfr.1
      refine ⟨j, ?_, hjd⟩
      rw [statFS_setEntry, if_neg (Ne.symm hdne), statFS_setEntry, if_neg (Ne.symm hdne)]
      exact hj
    · intro hne
      rw [statFS_setEntry, if_neg hne, statFS_setEntry, if_neg hne, hstat1, hstat]

/-- Witness for C4: adding `x/a.sh` to scripts directory `"s"` copies
its content to `s/a.sh`, makes the copy executable, creates the
directory entry and leaves the original untouched. -/
theorem addScript_spec_witness :
    trimSuffix (filepathBase "x/a.sh") ".sh" ++ ".sh" = filepathBase "x/a.sh" ∧
    ∃ fs3, addScript [("x/a.sh", ⟨false, 0o644, "body"⟩)] "x/a.sh" ⟨"s", "b"⟩ =
        (fs3, .ok ()) ∧
      (∃ d, statFS fs3 (filepathJoin "s" (filepathBase "x/a.sh")) = some d ∧
        d.isDir = false ∧ d.content = "body") ∧
      isExecutable fs3 (filepathJoin "s" (filepathBase "x/a.sh")) = true ∧
      (∃ j, statFS fs3 "s" = some j ∧ j.isDir = true) ∧
      ("x/a.sh" ≠ filepathJoin "s" (filepathBase "x/a.sh") →
        statFS fs3 "x/a.sh" = statFS [("x/a.sh", ⟨false, 0o644, "body"⟩)] "x/a.sh") :=
  (addScript_spec [("x/a.sh", ⟨false, 0o644, "body"⟩)] "x/a.sh" ⟨"s", "b"⟩).2
    ⟨false, 0o644, "body"⟩
    [("s", ⟨true, 0o755, ""⟩), ("x/a.sh", ⟨false, 0o644, "body"⟩)]
    (by decide) (by decide) (by decide) (by rfl) (by decide)

/-! ### C2: the config save/load round trip -/

theorem hexVal_hexDigit : ∀ d : Nat, d < 16 → hexVal (hexDigit d) = some d := by decide

theorem parseStringBody_quote (rest : List Char) :
    parseStringBody ('"' :: rest) = some ([], rest) := by
  rw [parseStringBody.eq_def]
  simp

theorem parseStringBody_esc (e : Char) (rest : List Char) (h : e ≠ 'u') :
    parseStringBody ('\\' :: e :: rest) =
      match escCharOf e with
      | none => none
      | some d => (fun p => (d :: p.1, p.2)) <$> parseStringBody rest := by
  rw [parseStringBody.eq_def]
  simp +decide [h]

theorem parseStringBody_u (a b c2 d : Char) (rest : List Char) :
    parseStringBody ('\\' :: 'u' :: a :: b :: c2 :: d :: rest) =
      match hexVal a, hexVal b, hexVal c2, hexVal d with
      | some va, some vb, some vc, some vd =>
        (fun p => (Char.ofNat ((((va * 16 + vb) * 16 + vc) * 16 + vd)) :: p.1, p.2)) <$>
          parseStringBody rest
      | _, _, _, _ => none := by
  rw [parseStringBody.eq_def]
  simp +decide

theorem parseStringBody_plain (c : Char) (rest : List Char) (h1 : c ≠ '"')
    (h2 : c ≠ '\\') :
    parseStringBody (c :: rest) = (fun p => (c :: p.1, p.2)) <$> parseStringBody rest := by
  rw [parseStringBody.eq_def]
  simp [h1, h2]

theorem parseStringBody_escape (l rest : List Char) :
    parseStringBody (escapeChars l ++ '"' :: rest) = some (l, rest) := by
  induction l with
  | nil =>
      show parseStringBody ('"' :: rest) = some ([], rest)
      exact parseStringBody_quote rest
  | cons c t ih =>
      show parseStringBody ((escC c ++ escapeChars t) ++ '"' :: rest) = some (c :: t, rest)
      rw [List.append_assoc]
      by_cases h1 : c = '"'
      · subst h1
        rw [show escC '"' = ['\\', '"'] from by decide]
        simp only [List.cons_append, List.nil_append]
        rw [parseStringBody_esc _ _ (by decide)]
        simp +decide [escCharOf, ih]
      · by_cases h2 : c = '\\'
        · subst h2
          rw [show escC '\\' = ['\\', '\\'] from by decide]
          simp only [List.cons_append, List.nil_append]
          rw [parseStringBody_esc _ _ (by decide)]
          simp +decide [escCharOf, ih]
        · by_cases h3 : c = '\n'
          · subst h3
            rw [show escC '\n' = ['\\', 'n'] from by decide]
            simp only [List.cons_append, List.nil_append]
            rw [parseStringBody_esc _ _ (by decide)]
            simp +decide [escCharOf, ih]
          · by_cases h4 : c = '\r'
            · subst h4
              rw [show escC '\r' = ['\\', 'r'] from by decide]
              simp only [List.cons_append, List.nil_append]
              rw [parseStringBody_esc _ _ (by decide)]
              simp +decide [escCharOf, ih]
            · by_cases h5 : c = '\t'
              · subst h5
                rw [show escC '\t' = ['\\', 't'] from by decide]
                simp only [List.cons_append, List.nil_append]
                rw [parseStringBody_esc _ _ (by decide)]
                simp +decide [escCharOf, ih]
              · by_cases h6 : c.toNat < 0x20
                · have hesc : escC c = hexU c.toNat := by
                    unfold escC
                    rw [if_neg h1, if_neg h2, if_neg h3, if_neg h4, if_neg h5, if_pos h6]
                  have e1 := hexVal_hexDigit (c.toNat / 4096 % 16) (Nat.mod_lt _ (by norm_num))
                  have e2 := hexVal_hexDigit (c.toNat / 256 % 16) (Nat.mod_lt _ (by norm_num))
                  have e3 := hexVal_hexDigit (c.toNat / 16 % 16) (Nat.mod_lt _ (by norm_num))
                  have e4 := hexVal_hexDigit (c.toNat % 16) (Nat.mod_lt _ (by norm_num))
                  have hrec : (((c.toNat / 4096 % 16) * 16 + c.toNat / 256 % 16) * 16 +
                      c.toNat / 16 % 16) * 16 + c.toNat % 16 = c.toNat := by omega
                  rw [hesc]
                  simp only [hexU, List.cons_append]
                  rw [parseStringBody_u]
                  simp only [e1, e2, e3, e4]
                  rw [hrec, Char.ofNat_toNat]
                  simp [ih]
                · by_cases h7 : c = '<' ∨ c = '>' ∨ c = '&'
                  · rcases h7 with h7 | h7 | h7 <;> subst h7
                    · rw [show escC '<' = ['\\', 'u', '0', '0', '3', 'c'] from by decide]
                      simp only [List.cons_append, List.nil_append]
                      rw [parseStringBody_u]
                      simp +decide [hexVal, ih]
                    · rw [show escC '>' = ['\\', 'u', '0', '0', '3', 'e'] from by decide]
                      simp only [List.cons_append, List.nil_append]
                      rw [parseStringBody_u]
                      simp +decide [hexVal, ih]
                    · rw [show escC '&' = ['\\', 'u', '0', '0', '2', '6'] from by decide]
                      simp only [List.cons_append, List.nil_append]
                      rw [parseStringBody_u]
                      simp +decide [hexVal, ih]
                  · by_cases h8 : c.toNat = 0x2028 ∨ c.toNat = 0x2029
                    · have hc : c = Char.ofNat c.toNat := (Char.ofNat_toNat c).symm
                      rcases h8 with h8 | h8 <;> rw [h8] at hc <;> subst hc
                      · rw [show escC (Char.ofNat 0x2028) = ['\\', 'u', '2', '0', '2', '8']
                            from by decide]
                        simp only [List.cons_append, List.nil_append]
                        rw [parseStringBody_u]
                        simp +decide [hexVal, ih]
                      · rw [show escC (Char.ofNat 0x2029) = ['\\', 'u', '2', '0', '2', '9']
                            from by decide]
                        simp only [List.cons_append, List.nil_append]
                        rw [parseStringBody_u]
                        simp +decide [hexVal, ih]
                    · have hesc : escC c = [c] := by
                        unfold escC
                        rw [if_neg h1, if_neg h2, if_neg h3, if_neg h4, if_neg h5,
                          if_neg h6, if_neg h7, if_neg h8]
                      rw [hesc]
                      simp only [List.cons_append, List.nil_append]
                      rw [parseStringBody_plain c _ h1 h2]
                      simp [ih]

theorem dropPrefixChars_append (pre l : List Char) :
    dropPrefixChars pre (pre ++ l) = some l := by
  induction pre with
  | nil => rfl
  | cons p ps ih => simp [dropPrefixChars, ih]

theorem unmarshalConfig_marshalConfig (c : Config) :
    unmarshalConfig (marshalConfig c) = some c := by
  obtain ⟨sd, bd⟩ := c
  simp +decide [unmarshalConfig, marshalConfig, escapeString, String.data_append,
    List.append_assoc, List.cons_append, dropPrefixChars, parseStringBody_escape]

theorem joinBin_ne_config (x y : String) :
    filepathJoin x "scripts_bin" ≠ filepathJoin y ".config.json" := by
  intro h
  have hd := congrArg (fun s : String => s.data.reverse) h
  simp only [filepathJoin, String.data_append, List.reverse_append, List.append_assoc] at hd
  have h1 := congrArg (fun l : List Char => l.getD 1 ' ') hd
  simp only at h1
  rw [List.getD_append _ _ _ _ (by decide), List.getD_append _ _ _ _ (by decide)] at h1
  exact absurd h1 (by decide)

theorem joinScripts_ne_config (x y : String) :
    filepathJoin x "scripts" ≠ filepathJoin y ".config.json" := by
  intro h
  have hd := congrArg (fun s : String => s.data.reverse) h
  simp only [filepathJoin, String.data_append, List.reverse_append, List.append_assoc] at hd
  have h1 := congrArg (fun l : List Char => l.getD 0 ' ') hd
  simp only at h1
  rw [List.getD_append _ _ _ _ (by decide), List.getD_append _ _ _ _ (by decide)] at h1
  exact absurd h1 (by decide)

/-- The location heuristic only stats paths ending in `/scripts_bin` or
`/scripts`, so writing the config file (a path ending in
`/.config.json`) does not change its outcome. -/
theorem resolveScriptsDir_setEntry_config (env : Env) (fs : FS) (d : String) (i : FileInfo) :
    resolveScriptsDir env (setEntry fs (filepathJoin d ".config.json") i) =
      resolveScriptsDir env fs := by
  obtain ⟨ep, cw, hm⟩ := env
  cases ep <;> cases cw <;>
    simp [resolveScriptsDir, statFS_setEntry, joinBin_ne_config, joinScripts_ne_config]

theorem writeFileFS_ok_shape (fs fs2 : FS) (p data : String)
    (h : writeFileFS fs p data = .ok fs2) :
    ∃ X : FileInfo, fs2 = setEntry fs p X ∧ X.isDir = false ∧ X.content = data := by
  unfold writeFileFS at h
  cases hstat : statFS fs p with
  | none =>
      simp only [hstat, Except.ok.injEq] at h
      exact ⟨⟨false, 0o644, data⟩, h.symm, rfl, rfl⟩
  | some j =>
      simp only [hstat] at h
      cases hjd : j.isDir with
      | true => simp [hjd] at h
      | false =>
          simp only [hjd, Bool.false_eq_true, if_false, Except.ok.injEq] at h
          exact ⟨⟨false, j.mode, data⟩, h.symm, rfl, rfl⟩

/-- C2: `save(cfg)` followed by `load()` in the same environment
returns a config whose `scriptDir` and `binDir` equal those of `cfg`:
both operations resolve the same config-file path, the written JSON
document round-trips through the escaper/parser, and the written file
does not perturb the location heuristic. -/
theorem saveConfig_loadConfig_roundtrip (env : Env) (fs fs' : FS) (cfg : Config)
    (h : saveConfig env fs cfg = .ok fs') :
    ∃ cfg' : Config, loadConfig env fs' = .ok (cfg', fs') ∧
      cfg'.scriptDir = cfg.scriptDir ∧ cfg'.binDir = cfg.binDir := by
  unfold saveConfig at h
  cases hres : resolveScriptsDir env fs with
  | none =>
      simp only [hres] at h
      exact Except.noConfusion h
  | some dir =>
      simp only [hres] at h
      cases hw : writeFileFS fs (filepathJoin dir ".config.json") (marshalConfig cfg) with
      | error e =>
          simp only [hw] at h
          exact Except.noConfusion h
      | ok fs2 =>
          simp only [hw, Except.ok.injEq] at h
          subst h
          obtain ⟨X, hfs2, hXd, hXc⟩ := writeFileFS_ok_shape fs fs2 _ _ hw
          subst hfs2
          refine ⟨cfg, ?_, rfl, rfl⟩
          simp [loadConfig, readFileFS, resolveScriptsDir_setEntry_config, hres,
            statFS_setEntry, hXd, hXc, unmarshalConfig_marshalConfig]

/-- Witness for C2: in an environment with only a home directory and an
empty filesystem, saving a concrete config writes
`/home/u/.config/scripts/.config.json`, and loading reads it back. -/
theorem saveConfig_loadConfig_roundtrip_witness :
    saveConfig ⟨none, none, some "/home/u"⟩ [] ⟨"/sdir", "/bdir"⟩ =
      .ok [("/home/u/.config/scripts/.config.json",
        ⟨false, 0o644, marshalConfig ⟨"/sdir", "/bdir"⟩⟩)] ∧
    ∃ cfg' : Config,
      loadConfig ⟨none, none, some "/home/u"⟩
          [("/home/u/.config/scripts/.config.json",
            ⟨false, 0o644, marshalConfig ⟨"/sdir", "/bdir"⟩⟩)] =
        .ok (cfg',
          [("/home/u/.config/scripts/.config.json",
            ⟨false, 0o644, marshalConfig ⟨"/sdir", "/bdir"⟩⟩)]) ∧
      cfg'.scriptDir = "/sdir" ∧ cfg'.binDir = "/bdir" :=
  ⟨by rfl,
    saveConfig_loadConfig_roundtrip ⟨none, none, some "/home/u"⟩ []
      [("/home/u/.config/scripts/.config.json",
        ⟨false, 0o644, marshalConfig ⟨"/sdir", "/bdir"⟩⟩)]
      ⟨"/sdir", "/bdir"⟩ (by rfl)⟩

end ScriptsTool
